import Mathlib

/-!
# Verification of the seastar experimental WebSocket server frame codec

Shallow embedding of `src/websocket/server.cc` (namespace
`seastar::experimental::websocket`).  Bytes are modelled as `Nat` values
below 256, buffers as `List Nat`.  The incremental frame decoder
(`operator()` of the parser class in `server.cc`, lines 195-293), the
outbound framer (`connection::send_data`, lines 374-398), the per-frame
dispatch (`connection::read_one`, lines 306-338), the close sequence
(`connection::close`, lines 359-372) and the handshake
(`connection::read_http_upgrade_request`, lines 148-193) are translated
here.  Declarations of the class layout that live in the (absent) header
`seastar/websocket/server.hh` — the frame-header bit layout, the opcode
set, the rest-of-header length and the XOR unmask — are modelled from the
spec where so marked.
-/

namespace Websocket

/-- Big-endian value of a byte list (`consume_be` reads this way). -/
def beVal (bs : List Nat) : Nat := bs.foldl (fun a b => a * 256 + b) 0

/-- Big-endian encoding of `L` into `k` bytes (`write_be`). -/
def beBytes : Nat → Nat → List Nat
  | 0, _ => []
  | k + 1, L => beBytes k (L / 256) ++ [L % 256]

/-- Modelled from the spec: the frame header parsed from the first two
bytes of a frame (the `frame_header` struct lives in the absent header
file).  byte0 = fin | rsv1 | rsv2 | rsv3 | 4-bit opcode; byte1 =
mask bit | 7-bit length field. -/
structure FrameHeader where
  fin : Nat
  rsv1 : Nat
  rsv2 : Nat
  rsv3 : Nat
  opcode : Nat
  masked : Bool
  length : Nat
deriving DecidableEq, Repr

/-- Modelled from the spec: bit extraction of the two header bytes. -/
def mkFrameHeader (b0 b1 : Nat) : FrameHeader :=
  { fin := b0 / 128 % 2
    rsv1 := b0 / 64 % 2
    rsv2 := b0 / 32 % 2
    rsv3 := b0 / 16 % 2
    opcode := b0 % 16
    masked := b1 / 128 % 2 == 1
    length := b1 % 128 }

/-- The closed opcode set of the spec: CONTINUATION, TEXT, BINARY, CLOSE,
PING, PONG. -/
def knownOpcodes : List Nat := [0, 1, 2, 8, 9, 10]

/-- Modelled from the spec: `is_opcode_known` of the absent header file —
the opcode must be in the closed set. -/
def FrameHeader.isOpcodeKnown (h : FrameHeader) : Bool :=
  knownOpcodes.contains h.opcode

/-- Modelled from the spec: `get_rest_of_header_length` — a fixed 4-byte
mask key plus 0, 2 or 8 extended-length bytes. -/
def FrameHeader.restOfHeaderLength (h : FrameHeader) : Nat :=
  4 + (if h.length = 126 then 2 else if h.length = 127 then 8 else 0)

/-- Modelled from the spec: byte `j mod 4` of the big-endian 32-bit
masking key. -/
def maskByte (key j : Nat) : Nat := key / 256 ^ (3 - j % 4) % 256

/-- Modelled from the spec: XOR-unmask starting at payload offset `i`. -/
def removeMaskFrom (key : Nat) : Nat → List Nat → List Nat
  | _, [] => []
  | i, b :: rest => (b ^^^ maskByte key i) :: removeMaskFrom key (i + 1) rest

/-- Modelled from the spec: `remove_mask` — XOR each payload byte with
`key[i mod 4]`, `i` the offset within the original payload. -/
def removeMask (key : Nat) (p : List Nat) : List Nat := removeMaskFrom key 0 p

/-- `parsing_state` of the decoder. -/
inductive ParsingState
  | flagsAndPayloadData
  | payloadLengthAndMask
  | payload
deriving DecidableEq, Repr

/-- `connection_state` of the decoder. -/
inductive ConnectionState
  | valid
  | closed
  | error
deriving DecidableEq, Repr

/-- The mutable state of the incremental frame decoder. -/
structure Parser where
  pstate : ParsingState
  cstate : ConnectionState
  buffer : List Nat
  header : Option FrameHeader
  payloadLength : Nat
  maskingKey : Nat
  result : List Nat
  consumedPayloadLength : Nat
deriving DecidableEq, Repr

/-- The freshly constructed decoder. -/
def Parser.init : Parser :=
  { pstate := .flagsAndPayloadData
    cstate := .valid
    buffer := []
    header := none
    payloadLength := 0
    maskingKey := 0
    result := []
    consumedPayloadLength := 0 }

/-- Outcome of one `feed` call: `stop rest` (stop_consuming with the
unconsumed bytes handed back) or `dontStop` (continue_consuming). -/
inductive FeedOut
  | stop (rest : List Nat)
  | dontStop
deriving DecidableEq, Repr

/-- `std::copy(data, data + n, buf + off)`: overwrite `buf` at offset
`off` with `data`. -/
def writeAt (buf : List Nat) (off : Nat) (data : List Nat) : List Nat :=
  buf.take off ++ data ++ buf.drop (off + data.length)

/-- The `flags_and_payload_data` block of the decoder (server.cc 202-231).
`Sum.inl` is an early return, `Sum.inr` falls through to the next block. -/
def feedFlags (p : Parser) (data : List Nat) :
    Sum (Parser × FeedOut) (Parser × List Nat) :=
  if p.buffer.length + data.length ≥ 2 then
    let hlen := p.buffer.length
    let hdr := p.buffer ++ data.take (2 - hlen)
    let data' := data.drop (2 - hlen)
    let h := mkFrameHeader (hdr.headD 0) ((hdr.drop 1).headD 0)
    let p' := { p with header := some h, buffer := [] }
    if h.masked = false ∨ (h.rsv1 ||| h.rsv2 ||| h.rsv3) ≠ 0 ∨
        h.isOpcodeKnown = false then
      Sum.inl ({ p' with cstate := .error }, .stop data')
    else
      Sum.inr ({ p' with pstate := .payloadLengthAndMask }, data')
  else
    Sum.inl ({ p with buffer := p.buffer ++ data }, .dontStop)

/-- The `payload_length_and_mask` block of the decoder (server.cc
232-254). -/
def feedLenMask (p : Parser) (data : List Nat) :
    Sum (Parser × FeedOut) (Parser × List Nat) :=
  let h := p.header.getD (mkFrameHeader 0 0)
  let required := h.restOfHeaderLength
  if p.buffer.length + data.length ≥ required then
    let buf := if p.buffer.length < required then
        p.buffer ++ data.take (required - p.buffer.length)
      else p.buffer
    let data' := if p.buffer.length < required then
        data.drop (required - p.buffer.length)
      else data
    let payloadLength :=
      if h.length = 126 then beVal (buf.take 2)
      else if h.length = 127 then beVal (buf.take 8)
      else h.length
    let maskOff := if h.length = 126 then 2 else if h.length = 127 then 8 else 0
    let maskingKey := beVal ((buf.drop maskOff).take 4)
    Sum.inr ({ p with payloadLength := payloadLength, maskingKey := maskingKey,
                      buffer := [], pstate := .payload }, data')
  else
    Sum.inl ({ p with buffer := p.buffer ++ data }, .dontStop)

/-- The `payload` block of the decoder (server.cc 256-290): accumulate raw
bytes; on the final chunk, remove the mask over the whole assembled
payload and stop with the leftover bytes. -/
def feedPayload (p : Parser) (data : List Nat) : Parser × FeedOut :=
  let remaining := p.payloadLength - p.consumedPayloadLength
  if data.length < remaining then
    if p.result.isEmpty then
      ({ p with result := writeAt (List.replicate remaining 0) 0 data
                consumedPayloadLength := data.length }, .dontStop)
    else
      ({ p with result := writeAt p.result p.consumedPayloadLength data
                consumedPayloadLength := p.consumedPayloadLength + data.length },
       .dontStop)
  else
    let consumedBytes := remaining
    let res := if p.result.isEmpty then data.take consumedBytes
      else writeAt p.result p.consumedPayloadLength (data.take consumedBytes)
    ({ p with result := removeMask p.maskingKey res
              consumedPayloadLength := 0
              pstate := .flagsAndPayloadData },
     .stop (data.drop consumedBytes))

/-- Fall-through after the `payload_length_and_mask` block: either the
early return, or the `payload` block, or the unreachable trailing
error return (server.cc 291-292). -/
def feedRest3 : Sum (Parser × FeedOut) (Parser × List Nat) → Parser × FeedOut
  | Sum.inl r => r
  | Sum.inr (p, data) =>
    if p.pstate = .payload then feedPayload p data
    else ({ p with cstate := .error }, .stop data)

/-- Fall-through after the `flags_and_payload_data` block. -/
def feedRest2 : Sum (Parser × FeedOut) (Parser × List Nat) → Parser × FeedOut
  | Sum.inl r => r
  | Sum.inr (p, data) =>
    feedRest3 (if p.pstate = .payloadLengthAndMask then feedLenMask p data
               else Sum.inr (p, data))

/-- One call of the decoder on a chunk — `operator()` of the parser class
in server.cc, lines 195-293, with its sequential fall-through of the three
state blocks.  An empty chunk is EOF and moves the connection state to
`closed`. -/
def feed (p : Parser) (data : List Nat) : Parser × FeedOut :=
  if data.length = 0 then ({ p with cstate := .closed }, .stop [])
  else
    feedRest2 (if p.pstate = .flagsAndPayloadData then feedFlags p data
               else Sum.inr (p, data))

/-- Feed a list of chunks in order, stopping at the first `stop` outcome
(as the stream consume loop does). -/
def feedList (p : Parser) : List (List Nat) → Parser × FeedOut
  | [] => (p, .dontStop)
  | c :: cs =>
    match feed p c with
    | (p', .dontStop) => feedList p' cs
    | (p', .stop rest) => (p', .stop rest)

/-- One `consume` call of the buffered input stream: feed successive
chunks until the decoder stops; at stream end the decoder is fed an empty
chunk (EOF).  Returns the decoder and the unread chunks (a partially
consumed chunk is pushed back). -/
def consume (p : Parser) : List (List Nat) → Parser × List (List Nat)
  | [] => ((feed p []).1, [])
  | c :: cs =>
    match feed p c with
    | (p', .dontStop) => consume p' cs
    | (p', .stop rest) => (p', if rest.length = 0 then cs else rest :: cs)

/-- `opcode()` of the decoder: the parsed opcode, or the INVALID sentinel
(modelled as 255, per the spec an INVALID value used before any header is
parsed) when no header has been parsed yet. -/
def Parser.opcode (p : Parser) : Nat :=
  match p.header with
  | some h => h.opcode
  | none => 255

/-- A well-formed masked client-to-server frame, given by its header
flags, masking key and payload. -/
structure Frame where
  fin : Bool
  opcode : Nat
  key : Nat
  payload : List Nat
deriving DecidableEq, Repr

/-- Well-formedness: known opcode, 32-bit key, byte-valued payload whose
length fits the 64-bit extended length field. -/
def Frame.wf (f : Frame) : Prop :=
  f.opcode ∈ knownOpcodes ∧ f.key < 2 ^ 32 ∧
    f.payload.all (· < 256) = true ∧ f.payload.length < 2 ^ 64

instance (f : Frame) : Decidable f.wf := by
  unfold Frame.wf; infer_instance

/-- The 7-bit length field chosen for a payload of length `L`. -/
def lenField (L : Nat) : Nat :=
  if L ≤ 125 then L else if L ≤ 65535 then 126 else 127

/-- The extended-length bytes for a payload of length `L`. -/
def extLenBytes (L : Nat) : List Nat :=
  if L ≤ 125 then [] else if L ≤ 65535 then beBytes 2 L else beBytes 8 L

/-- The wire bytes of a masked frame as a client would send it: two header
bytes (mask bit set), extended length, big-endian 4-byte key, masked
payload (masking is the same XOR as unmasking). -/
def maskedFrameBytes (f : Frame) : List Nat :=
  ((if f.fin then 128 else 0) + f.opcode) ::
    (128 + lenField f.payload.length) ::
    (extLenBytes f.payload.length ++ beBytes 4 f.key ++
      removeMask f.key f.payload)

/-- The decoder immediately after a whole well-formed frame has been
decoded: back in the header-awaiting state, result = unmasked payload. -/
def doneParser (f : Frame) : Parser :=
  { pstate := .flagsAndPayloadData
    cstate := .valid
    buffer := []
    header := some
      { fin := if f.fin then 1 else 0, rsv1 := 0, rsv2 := 0, rsv3 := 0
        opcode := f.opcode, masked := true
        length := lenField f.payload.length }
    payloadLength := f.payload.length
    maskingKey := f.key
    result := f.payload
    consumedPayloadLength := 0 }

/-- `connection::send_data` (server.cc 374-398): the bytes the outbound
framer writes for one frame — `0x80 | opcode`, the 7/16/64-bit tiered
length, no mask, raw payload. -/
def sendDataBytes (opcode : Nat) (payload : List Nat) : List Nat :=
  let b0 := 128 + opcode
  if 126 ≤ payload.length ∧ payload.length ≤ 65535 then
    b0 :: 126 :: (beBytes 2 payload.length ++ payload)
  else if 65535 < payload.length then
    b0 :: 127 :: (beBytes 8 payload.length ++ payload)
  else
    b0 :: payload.length :: payload

/-- Transform an outbound (server-to-client) frame into the bytes of the
same frame as if received from a client: set the mask bit of byte 1,
insert a big-endian 4-byte masking key after the length bytes, and XOR
the payload with it. -/
def asReceived (key : Nat) : List Nat → List Nat
  | b0 :: b1 :: rest =>
    let extLen := if b1 = 126 then 2 else if b1 = 127 then 8 else 0
    b0 :: (b1 + 128) ::
      (rest.take extLen ++ beBytes 4 key ++ removeMask key (rest.drop extLen))
  | bs => bs

/-- Observable state of one connection: the `done` flag, both payload
queues, the two socket shutdown directions, the bytes written to the wire
and the payloads delivered to the handler's inbound queue. -/
structure Conn where
  done : Bool
  inputQClosed : Bool
  outputQClosed : Bool
  inputShutdown : Bool
  outputShutdown : Bool
  wire : List Nat
  inbound : List (List Nat)
deriving DecidableEq, Repr

/-- A freshly connected connection (post-handshake). -/
def Conn.init : Conn :=
  { done := false, inputQClosed := false, outputQClosed := false
    inputShutdown := false, outputShutdown := false, wire := [], inbound := [] }

/-- `connection::close(send_close)` (server.cc 359-372): optionally write
a CLOSE frame with empty payload, then set `done`, close both queues and
shut down the socket's output direction.  The input direction is not
touched here. -/
def close (c : Conn) (sendClose : Bool) : Conn :=
  let c1 := if sendClose then { c with wire := c.wire ++ sendDataBytes 8 [] }
    else c
  { c1 with done := true, inputQClosed := true, outputQClosed := true,
            outputShutdown := true }

/-- `connection::shutdown_input` (server.cc 355-357), called only from
`server::stop`. -/
def shutdownInput (c : Conn) : Conn := { c with inputShutdown := true }

/-- `connection::read_one` (server.cc 306-338): dispatch on the decoder
outcome after one consume — data frames are pushed to the handler queue
(the decoder's result is moved out), CLOSE triggers `close(true)`,
PING/PONG are stubs, EOF triggers `close(false)`, and anything else
(including decoder error) falls through to `close(true)`. -/
def readOne (c : Conn) (p : Parser) : Conn × Parser :=
  if p.cstate = ConnectionState.valid then
    if p.opcode = 0 ∨ p.opcode = 1 ∨ p.opcode = 2 then
      ({ c with inbound := c.inbound ++ [p.result] }, { p with result := [] })
    else if p.opcode = 8 then (close c true, p)
    else if p.opcode = 9 then (c, p)
    else if p.opcode = 10 then (c, p)
    else (close c true, p)
  else if p.cstate = ConnectionState.closed then (close c false, p)
  else (close c true, p)

/-- The decode loop of `connection::read_loop` (server.cc 348):
`do_until([this]{return _done;}, [this]{return read_one();})` over a
stream of chunks, with explicit fuel for the number of iterations. -/
def readLoop (c : Conn) (p : Parser) (chunks : List (List Nat)) :
    Nat → Conn × Parser
  | 0 => (c, p)
  | fuel + 1 =>
    if c.done then (c, p)
    else
      let pc := consume p chunks
      let cp := readOne c pc.1
      readLoop cp.1 cp.2 pc.2 fuel

/-! ## Handshake (`connection::read_http_upgrade_request`, server.cc
148-193) with the SHA-1 and base64 primitives modelled from the spec
(they are provided by gnutls, outside this repository). -/

/-- Rotate a 32-bit word left by `n`. -/
def rotl (n x : Nat) : Nat := (x * 2 ^ n + x / 2 ^ (32 - n)) % 2 ^ 32

/-- Modelled from the spec: SHA-1 message padding (0x80, zeros, 64-bit
big-endian bit length). -/
def sha1Pad (msg : List Nat) : List Nat :=
  let len := msg.length
  let zeros := (119 - len % 64) % 64
  msg ++ [128] ++ List.replicate zeros 0 ++ beBytes 8 (8 * len)

/-- Split into 64-byte blocks (fuelled). -/
def sha1Blocks : Nat → List Nat → List (List Nat)
  | 0, _ => []
  | _, [] => []
  | fuel + 1, l => l.take 64 :: sha1Blocks fuel (l.drop 64)

/-- Group bytes into big-endian 32-bit words. -/
def toWords : List Nat → List Nat
  | b0 :: b1 :: b2 :: b3 :: rest => beVal [b0, b1, b2, b3] :: toWords rest
  | _ => []

/-- Extend the 16 block words to 80 schedule words. -/
def extendW : Nat → List Nat → List Nat
  | 0, w => w
  | fuel + 1, w =>
    let i := w.length
    let wi := rotl 1 ((w.getD (i - 3) 0) ^^^ (w.getD (i - 8) 0) ^^^
                      (w.getD (i - 14) 0) ^^^ (w.getD (i - 16) 0))
    extendW fuel (w ++ [wi])

/-- SHA-1 round function selector. -/
def sha1F (i b c d : Nat) : Nat :=
  if i < 20 then (b &&& c) ||| ((b ^^^ 4294967295) &&& d)
  else if i < 40 then b ^^^ c ^^^ d
  else if i < 60 then (b &&& c) ||| (b &&& d) ||| (c &&& d)
  else b ^^^ c ^^^ d

/-- SHA-1 round constants. -/
def sha1K (i : Nat) : Nat :=
  if i < 20 then 1518500249
  else if i < 40 then 1859775393
  else if i < 60 then 2400959708
  else 3395469782

/-- One SHA-1 round on the five-word state. -/
def sha1Round (w : List Nat) (st : Nat × Nat × Nat × Nat × Nat) (i : Nat) :
    Nat × Nat × Nat × Nat × Nat :=
  let a := st.1
  let b := st.2.1
  let c := st.2.2.1
  let d := st.2.2.2.1
  let e := st.2.2.2.2
  let temp := (rotl 5 a + sha1F i b c d + e + sha1K i + w.getD i 0) % 2 ^ 32
  (temp, a, rotl 30 b, c, d)

/-- Compress one 64-byte block into the running hash state. -/
def sha1Compress (h : Nat × Nat × Nat × Nat × Nat) (block : List Nat) :
    Nat × Nat × Nat × Nat × Nat :=
  let w := extendW 64 (toWords block)
  let st := (List.range 80).foldl (sha1Round w) h
  ((h.1 + st.1) % 2 ^ 32, (h.2.1 + st.2.1) % 2 ^ 32,
   (h.2.2.1 + st.2.2.1) % 2 ^ 32, (h.2.2.2.1 + st.2.2.2.1) % 2 ^ 32,
   (h.2.2.2.2 + st.2.2.2.2) % 2 ^ 32)

/-- Modelled from the spec: the SHA-1 digest (20 bytes) of a byte
sequence. -/
def sha1 (msg : List Nat) : List Nat :=
  let padded := sha1Pad msg
  let blocks := sha1Blocks (padded.length + 1) padded
  let h := blocks.foldl sha1Compress
    (1732584193, 4023233417, 2562383102, 271733878, 3285377520)
  beBytes 4 h.1 ++ beBytes 4 h.2.1 ++ beBytes 4 h.2.2.1 ++
    beBytes 4 h.2.2.2.1 ++ beBytes 4 h.2.2.2.2

/-- The standard base64 alphabet. -/
def b64Chars : List Char :=
  "ABCDEFGHIJKLMNOPQRSTUVWXYZabcdefghijklmnopqrstuvwxyz0123456789+/".data

/-- Alphabet lookup. -/
def b64Char (n : Nat) : Char := b64Chars.getD n 'A'

/-- Modelled from the spec: base64 encoding with `=` padding. -/
def base64Chars : List Nat → List Char
  | [] => []
  | [a] => [b64Char (a / 4), b64Char (a % 4 * 16), '=', '=']
  | [a, b] => [b64Char (a / 4), b64Char (a % 4 * 16 + b / 16),
               b64Char (b % 16 * 4), '=']
  | a :: b :: c :: rest =>
    b64Char (a / 4) :: b64Char (a % 4 * 16 + b / 16) ::
      b64Char (b % 16 * 4 + c / 64) :: b64Char (c % 64) :: base64Chars rest

/-- Base64 of a byte list, as a string. -/
def base64 (bs : List Nat) : String := String.mk (base64Chars bs)

/-- The bytes of an ASCII string. -/
def strBytes (s : String) : List Nat := s.data.map Char.toNat

/-- `sha1_base64` (server.cc 127-146): base64 of the SHA-1 digest. -/
def sha1Base64 (s : String) : String := base64 (sha1 (strBytes s))

/-- The magic GUID appended to the client key (server.cc 35). -/
def magicKeySuffix : String := "258EAFA5-E914-47DA-95CA-C5AB0DC85B11"

/-- The fixed reply text up to and including the
`Sec-WebSocket-Accept: ` header name (server.cc 36-41). -/
def httpUpgradeReplyTemplate : String :=
  "HTTP/1.1 101 Switching Protocols\r\n" ++
  "Upgrade: websocket\r\n" ++
  "Connection: Upgrade\r\n" ++
  "Sec-WebSocket-Version: 13\r\n" ++
  "Sec-WebSocket-Accept: "

/-- An upgrade request as seen through the external HTTP parser: header
name/value pairs, plus the parser's eof/failed outcome. -/
structure Request where
  headers : List (String × String)
deriving DecidableEq, Repr

/-- `req->get_header(name)`: the header value, or `""` when absent. -/
def Request.getHeader (req : Request) (name : String) : String :=
  match req.headers.lookup name with
  | some v => v
  | none => ""

/-- The distinguishable failure modes of the handshake. -/
inductive HandshakeError
  | incorrectRequest
  | upgradeMissing
  | unsupportedSubprotocol
deriving DecidableEq, Repr

/-- Outcome of `connection::read_http_upgrade_request` (server.cc
148-193): the bytes written to the write buffer, and either an error or
the bound subprotocol (with the `done` flag for the eof case).  Each
`throw` happens before any write, so the written text is empty on every
error. -/
def readHttpUpgradeRequest (handlers : List String) (eofReached failed : Bool)
    (req : Request) : String × Except HandshakeError (Option String) :=
  if eofReached then ("", .ok none)
  else if failed then ("", .error .incorrectRequest)
  else if req.getHeader "Upgrade" ≠ "websocket" then
    ("", .error .upgradeMissing)
  else
    let subprotocol := req.getHeader "Sec-WebSocket-Protocol"
    if ¬ handlers.contains subprotocol then
      ("", .error .unsupportedSubprotocol)
    else
      let secKey := req.getHeader "Sec-Websocket-Key"
      let sha1Output := sha1Base64 (secKey ++ magicKeySuffix)
      (httpUpgradeReplyTemplate ++ sha1Output ++
        (if subprotocol ≠ "" then "\r\nSec-WebSocket-Protocol: " ++ subprotocol
         else "") ++ "\r\n\r\n",
       .ok (some subprotocol))

/-! ## Helper lemmas -/

theorem beBytes_length (k L : Nat) : (beBytes k L).length = k := by
  induction k generalizing L with
  | zero => rfl
  | succ k ih => simp [beBytes, ih]

theorem beBytes_lt (k L : Nat) : (beBytes k L).all (· < 256) = true := by
  induction k generalizing L with
  | zero => rfl
  | succ k ih =>
    simp only [beBytes, List.all_append, ih, Bool.true_and, List.all_cons,
      List.all_nil, Bool.and_true, decide_eq_true_eq]
    omega

theorem beVal_append (xs : List Nat) (b : Nat) :
    beVal (xs ++ [b]) = beVal xs * 256 + b := by
  simp [beVal, List.foldl_append]

theorem beVal_beBytes (k L : Nat) (h : L < 256 ^ k) :
    beVal (beBytes k L) = L := by
  induction k generalizing L with
  | zero =>
    simp only [pow_zero, Nat.lt_one_iff] at h
    simp [beBytes, beVal, h]
  | succ k ih =>
    have hdiv : L / 256 < 256 ^ k := by
      rw [Nat.div_lt_iff_lt_mul (by norm_num)]
      calc L < 256 ^ (k + 1) := h
        _ = 256 ^ k * 256 := by ring
    rw [beBytes, beVal_append, ih _ hdiv]
    omega

theorem contains_iff_mem (l : List Nat) (a : Nat) :
    l.contains a = true ↔ a ∈ l := by
  simp [List.contains, List.elem_iff]

theorem removeMaskFrom_length (key : Nat) (i : Nat) (p : List Nat) :
    (removeMaskFrom key i p).length = p.length := by
  induction p generalizing i with
  | nil => rfl
  | cons b rest ih => simp [removeMaskFrom, ih]

theorem removeMask_length (key : Nat) (p : List Nat) :
    (removeMask key p).length = p.length := removeMaskFrom_length key 0 p

theorem removeMaskFrom_removeMaskFrom (key : Nat) (i : Nat) (p : List Nat) :
    removeMaskFrom key i (removeMaskFrom key i p) = p := by
  induction p generalizing i with
  | nil => rfl
  | cons b rest ih =>
    simp [removeMaskFrom, ih, Nat.xor_assoc, Nat.xor_self]

theorem removeMask_removeMask (key : Nat) (p : List Nat) :
    removeMask key (removeMask key p) = p :=
  removeMaskFrom_removeMaskFrom key 0 p

/-- Parsing the two wire header bytes of a well-formed frame yields the
expected header record. -/
theorem mkFrameHeader_wire (fin : Bool) (op lf : Nat)
    (hop : op ≤ 15) (hlf : lf ≤ 127) :
    mkFrameHeader ((if fin then 128 else 0) + op) (128 + lf) =
      { fin := if fin then 1 else 0, rsv1 := 0, rsv2 := 0, rsv3 := 0,
        opcode := op, masked := true, length := lf } := by
  cases fin <;> simp [mkFrameHeader, FrameHeader.mk.injEq] <;> omega

theorem lenField_le (L : Nat) : lenField L ≤ 127 := by
  unfold lenField; split <;> [omega; split <;> omega]

theorem extLenBytes_length (L : Nat) :
    (extLenBytes L).length =
      (if lenField L = 126 then 2 else if lenField L = 127 then 8 else 0) := by
  unfold extLenBytes lenField
  rcases le_or_lt L 125 with h1 | h1
  · simp only [if_pos h1]
    have h2 : L ≠ 126 := by omega
    have h3 : L ≠ 127 := by omega
    simp [h2, h3]
  · simp only [if_neg (not_le.mpr h1)]
    rcases le_or_lt L 65535 with h2 | h2
    · simp only [if_pos h2]
      simp [beBytes_length]
    · simp only [if_neg (not_le.mpr h2)]
      simp [beBytes_length]

/-- The wire header of a well-formed frame. -/
def headerOf (f : Frame) : FrameHeader :=
  { fin := if f.fin then 1 else 0, rsv1 := 0, rsv2 := 0, rsv3 := 0,
    opcode := f.opcode, masked := true, length := lenField f.payload.length }

theorem headerOf_restOfHeaderLength (f : Frame) :
    (headerOf f).restOfHeaderLength = 4 + (extLenBytes f.payload.length).length := by
  rw [FrameHeader.restOfHeaderLength, extLenBytes_length, headerOf]

theorem headerOf_isOpcodeKnown (f : Frame) (h : f.opcode ∈ knownOpcodes) :
    (headerOf f).isOpcodeKnown = true := by
  rw [FrameHeader.isOpcodeKnown, contains_iff_mem]
  exact h

theorem opcode_le_15 (op : Nat) (h : op ∈ knownOpcodes) : op ≤ 15 := by
  simp only [knownOpcodes, List.mem_cons, List.not_mem_nil, or_false] at h
  rcases h with h | h | h | h | h | h <;> omega

/-- Decoder state after the two header bytes of a well-formed frame. -/
def afterHeader (f : Frame) : Parser :=
  { Parser.init with header := some (headerOf f),
                     pstate := .payloadLengthAndMask }

/-- Decoder state after the extended length and masking key of a
well-formed frame. -/
def afterLenMask (f : Frame) : Parser :=
  { Parser.init with header := some (headerOf f), pstate := .payload,
                     payloadLength := f.payload.length, maskingKey := f.key }

theorem feedFlags_wf (f : Frame) (hwf : f.wf) (t : List Nat) :
    feedFlags Parser.init
      (((if f.fin then 128 else 0) + f.opcode) ::
        (128 + lenField f.payload.length) :: t) =
      Sum.inr (afterHeader f, t) := by
  obtain ⟨hop, -, -, -⟩ := hwf
  have hhdr : mkFrameHeader ((if f.fin then 128 else 0) + f.opcode)
      (128 + lenField f.payload.length) = headerOf f := by
    rw [mkFrameHeader_wire f.fin f.opcode (lenField f.payload.length)
      (opcode_le_15 _ hop) (lenField_le _)]
    rfl
  simp only [feedFlags, Parser.init, List.length_nil, List.length_cons,
    Nat.zero_add, List.nil_append, Nat.sub_zero]
  rw [if_pos (by omega)]
  simp only [List.take_succ_cons, List.take_zero, List.drop_succ_cons,
    List.drop_zero, List.headD_cons, List.drop_one, List.tail_cons]
  rw [hhdr]
  rw [if_neg]
  · rfl
  · intro hcon
    rcases hcon with h | h | h
    · simp [headerOf] at h
    · simp [headerOf] at h
    · rw [headerOf_isOpcodeKnown f hop] at h
      exact absurd h (by decide)

/-- Parsing the extended length and mask bytes of a well-formed frame
recovers its payload length and key. -/
theorem lenmask_parse (f : Frame) (hwf : f.wf) :
    ((if (headerOf f).length = 126 then
        beVal ((extLenBytes f.payload.length ++ beBytes 4 f.key).take 2)
      else if (headerOf f).length = 127 then
        beVal ((extLenBytes f.payload.length ++ beBytes 4 f.key).take 8)
      else (headerOf f).length) = f.payload.length) ∧
    beVal (((extLenBytes f.payload.length ++ beBytes 4 f.key).drop
        (if (headerOf f).length = 126 then 2
         else if (headerOf f).length = 127 then 8 else 0)).take 4) = f.key := by
  obtain ⟨-, hkey, -, hlen⟩ := hwf
  have hkey4 : beVal (beBytes 4 f.key) = f.key := beVal_beBytes 4 f.key (by
    norm_num at hkey ⊢; omega)
  have hmlen : (beBytes 4 f.key).length = 4 := beBytes_length 4 f.key
  have hL := f.payload.length
  rcases le_or_lt f.payload.length 125 with h1 | h1
  · have hlf : (headerOf f).length = f.payload.length := by
      simp [headerOf, lenField, h1]
    have hext : extLenBytes f.payload.length = [] := by
      simp [extLenBytes, h1]
    have hne126 : (f.payload.length = 126) = False := by
      simp; omega
    have hne127 : (f.payload.length = 127) = False := by
      simp; omega
    simp only [hlf, hext, hne126, hne127, if_false, List.nil_append,
      List.drop_zero]
    exact ⟨trivial, by rw [List.take_of_length_le (le_of_eq hmlen), hkey4]⟩
  · rcases le_or_lt f.payload.length 65535 with h2 | h2
    · have hlf : (headerOf f).length = 126 := by
        simp [headerOf, lenField, not_le.mpr h1, h2]
      have hext : extLenBytes f.payload.length = beBytes 2 f.payload.length := by
        simp only [extLenBytes, if_neg (not_le.mpr h1), if_pos h2]
      have hextlen : (beBytes 2 f.payload.length).length = 2 :=
        beBytes_length _ _
      have he : ((126 : Nat) = 126) = True := by simp
      simp only [hlf, hext, he, if_true]
      constructor
      · rw [List.take_left' hextlen, beVal_beBytes 2 _ (by norm_num; omega)]
      · rw [List.drop_left' hextlen, List.take_of_length_le (le_of_eq hmlen),
          hkey4]
    · have hlf : (headerOf f).length = 127 := by
        simp [headerOf, lenField, not_le.mpr h1, not_le.mpr h2]
      have hext : extLenBytes f.payload.length = beBytes 8 f.payload.length := by
        simp only [extLenBytes, if_neg (not_le.mpr h1), if_neg (not_le.mpr h2)]
      have hextlen : (beBytes 8 f.payload.length).length = 8 :=
        beBytes_length _ _
      have he1 : ((127 : Nat) = 126) = False := by simp
      have he2 : ((127 : Nat) = 127) = True := by simp
      simp only [hlf, hext, he1, he2, if_false, if_true]
      constructor
      · rw [List.take_left' hextlen,
          beVal_beBytes 8 _ (by norm_num at hlen ⊢; omega)]
      · rw [List.drop_left' hextlen, List.take_of_length_le (le_of_eq hmlen),
          hkey4]

/-- Running the `payload_length_and_mask` block with an empty accumulation
buffer on a chunk that starts with exactly the required bytes. -/
theorem feedLenMask_run (p : Parser) (h : FrameHeader) (front u : List Nat)
    (hhd : p.header = some h) (hbuf : p.buffer = [])
    (hfl : front.length = h.restOfHeaderLength) :
    feedLenMask p (front ++ u) =
      Sum.inr ({ p with
        payloadLength := if h.length = 126 then beVal (front.take 2)
          else if h.length = 127 then beVal (front.take 8) else h.length
        maskingKey := beVal ((front.drop
          (if h.length = 126 then 2 else if h.length = 127 then 8 else 0)).take 4)
        buffer := []
        pstate := .payload }, u) := by
  have h0 : 0 < h.restOfHeaderLength := by
    rw [FrameHeader.restOfHeaderLength]; omega
  simp only [feedLenMask, hhd, hbuf, Option.getD_some, List.length_nil,
    Nat.zero_add, List.length_append, Nat.sub_zero]
  rw [if_pos (by omega)]
  simp only [if_pos h0]
  rw [List.take_left' hfl, List.drop_left' hfl]
  simp only [List.nil_append]

/-- Feeding the extended length and masking key (plus trailing bytes `u`)
to the decoder right after the header moves it to the payload state. -/
theorem feedLenMask_wf (f : Frame) (hwf : f.wf) (u : List Nat) :
    feedLenMask (afterHeader f)
      (extLenBytes f.payload.length ++ beBytes 4 f.key ++ u) =
      Sum.inr (afterLenMask f, u) := by
  have hextlen : (extLenBytes f.payload.length ++ beBytes 4 f.key).length =
      (headerOf f).restOfHeaderLength := by
    rw [List.length_append, beBytes_length, headerOf_restOfHeaderLength]
    omega
  obtain ⟨hparse1, hparse2⟩ := lenmask_parse f hwf
  rw [feedLenMask_run (afterHeader f) (headerOf f)
    (extLenBytes f.payload.length ++ beBytes 4 f.key) u rfl rfl hextlen]
  rw [hparse1, hparse2]
  rfl

/-- Feeding the whole masked payload (plus trailing bytes) to the decoder
in the payload state completes the frame: the mask is removed in one pass
and the decoder returns to the header-awaiting state. -/
theorem feedPayload_whole (f : Frame) (extra : List Nat) :
    feedPayload (afterLenMask f) (removeMask f.key f.payload ++ extra) =
      (doneParser f, .stop extra) := by
  have hmp : (removeMask f.key f.payload).length = f.payload.length :=
    removeMask_length _ _
  simp only [feedPayload, afterLenMask, Parser.init, Nat.sub_zero,
    List.length_append]
  rw [if_neg (by omega)]
  simp only [List.isEmpty_nil, reduceIte]
  rw [List.take_left' hmp, List.drop_left' hmp, removeMask_removeMask]
  rfl

/-- Feeding a whole well-formed masked frame (plus trailing bytes) to a
fresh decoder decodes it in one call. -/
theorem feed_whole (f : Frame) (hwf : f.wf) (extra : List Nat) :
    feed Parser.init (maskedFrameBytes f ++ extra) =
      (doneParser f, .stop extra) := by
  have hshape : maskedFrameBytes f ++ extra =
      ((if f.fin then 128 else 0) + f.opcode) ::
        (128 + lenField f.payload.length) ::
        (extLenBytes f.payload.length ++ beBytes 4 f.key ++
          (removeMask f.key f.payload ++ extra)) := by
    simp [maskedFrameBytes, List.append_assoc]
  rw [feed, hshape]
  rw [if_neg (by simp)]
  rw [if_pos (show Parser.init.pstate = ParsingState.flagsAndPayloadData
    from rfl)]
  rw [feedFlags_wf f hwf]
  rw [feedRest2]
  rw [if_pos (show (afterHeader f).pstate = ParsingState.payloadLengthAndMask
    from rfl)]
  rw [feedLenMask_wf f hwf]
  rw [feedRest3]
  rw [if_pos (show (afterLenMask f).pstate = ParsingState.payload from rfl)]
  exact feedPayload_whole f extra

/-! ## Byte-at-a-time runs of the decoder -/

theorem writeAt_replicate_zero (n : Nat) (data : List Nat) :
    writeAt (List.replicate n (0 : Nat)) 0 data =
      data ++ List.replicate (n - data.length) 0 := by
  simp [writeAt, List.drop_replicate]

theorem writeAt_fill (mp : List Nat) (c : Nat) (q : List Nat)
    (hcq : c + q.length ≤ mp.length) :
    writeAt (mp.take c ++ List.replicate (mp.length - c) 0) c q =
      mp.take c ++ q ++ List.replicate (mp.length - c - q.length) 0 := by
  have htc : (mp.take c).length = c := by
    simp [List.length_take]; omega
  rw [writeAt, List.take_left' htc, List.drop_append_eq_append_drop, htc]
  rw [List.drop_eq_nil_of_le (by rw [htc]; omega), List.drop_replicate]
  simp only [List.nil_append, List.append_assoc]
  congr 3
  omega

/-- Accumulating a short chunk in the header state. -/
theorem feed_flags_accum (p : Parser) (data : List Nat)
    (hp : p.pstate = .flagsAndPayloadData)
    (hlen : p.buffer.length + data.length < 2) (hne : data.length ≠ 0) :
    feed p data = ({ p with buffer := p.buffer ++ data }, .dontStop) := by
  rw [feed, if_neg hne, if_pos hp]
  rw [feedFlags, if_neg (by omega)]
  rw [feedRest2]

/-- Accumulating a short chunk in the extended-length-and-mask state. -/
theorem feed_lenmask_accum (p : Parser) (data : List Nat)
    (hp : p.pstate = .payloadLengthAndMask)
    (hlen : p.buffer.length + data.length <
      (p.header.getD (mkFrameHeader 0 0)).restOfHeaderLength)
    (hne : data.length ≠ 0) :
    feed p data = ({ p with buffer := p.buffer ++ data }, .dontStop) := by
  rw [feed, if_neg hne, if_neg (by rw [hp]; decide)]
  rw [feedRest2, if_pos hp]
  rw [feedLenMask, if_neg (by omega)]
  rw [feedRest3]

/-- Feeding the second header byte alone completes the two-byte header of
a well-formed frame and leaves the decoder awaiting the extended length
and mask. -/
theorem feed_second_byte (f : Frame) (hwf : f.wf) :
    feed { Parser.init with buffer := [(if f.fin then 128 else 0) + f.opcode] }
      [128 + lenField f.payload.length] = (afterHeader f, .dontStop) := by
  obtain ⟨hop, -, -, -⟩ := hwf
  have hhdr : mkFrameHeader ((if f.fin then 128 else 0) + f.opcode)
      (128 + lenField f.payload.length) = headerOf f := by
    rw [mkFrameHeader_wire f.fin f.opcode (lenField f.payload.length)
      (opcode_le_15 _ hop) (lenField_le _)]
    rfl
  rw [feed]
  rw [if_neg (by simp)]
  rw [if_pos (show ({ Parser.init with
    buffer := [(if f.fin then 128 else 0) + f.opcode] } : Parser).pstate =
    ParsingState.flagsAndPayloadData from rfl)]
  rw [feedFlags]
  rw [if_pos (by simp)]
  simp only [List.length_singleton]
  rw [show (2 : Nat) - 1 = 1 from rfl]
  rw [show List.take 1 [128 + lenField f.payload.length] =
    [128 + lenField f.payload.length] from rfl]
  rw [show List.drop 1 [128 + lenField f.payload.length] = ([] : List Nat)
    from rfl]
  simp only [List.cons_append, List.nil_append, List.headD_cons,
    List.drop_one, List.tail_cons]
  rw [hhdr]
  rw [if_neg]
  · rw [feedRest2]
    rw [if_pos (show ParsingState.payloadLengthAndMask =
      ParsingState.payloadLengthAndMask from rfl)]
    rw [feedLenMask]
    rw [if_neg (by
      simp only [List.length_nil, Nat.add_zero, Option.getD_some]
      rw [headerOf_restOfHeaderLength]
      omega)]
    rw [feedRest3]
    simp [afterHeader, Parser.init]
  · intro hcon
    rcases hcon with h | h | h
    · simp [headerOf] at h
    · simp [headerOf] at h
    · rw [headerOf_isOpcodeKnown f hop] at h
      exact absurd h (by decide)

/-- The last byte of the extended-length-and-mask region completes that
region. -/
theorem feedLenMask_run' (p : Parser) (h : FrameHeader) (front : List Nat)
    (b : Nat) (hhd : p.header = some h) (hbuf : p.buffer ++ [b] = front)
    (hfl : front.length = h.restOfHeaderLength) :
    feedLenMask p [b] =
      Sum.inr ({ p with
        payloadLength := if h.length = 126 then beVal (front.take 2)
          else if h.length = 127 then beVal (front.take 8) else h.length
        maskingKey := beVal ((front.drop
          (if h.length = 126 then 2 else if h.length = 127 then 8 else 0)).take 4)
        buffer := []
        pstate := .payload }, []) := by
  have hlb : p.buffer.length + 1 = h.restOfHeaderLength := by
    rw [← hfl, ← hbuf]
    simp
  have hcond : p.buffer.length < h.restOfHeaderLength := by omega
  rw [feedLenMask, hhd]
  simp only [Option.getD_some, List.length_cons, List.length_nil,
    Nat.zero_add]
  rw [if_pos (by omega)]
  simp only [if_pos hcond]
  rw [show h.restOfHeaderLength - p.buffer.length = 1 from by omega]
  rw [show List.take 1 [b] = [b] from rfl,
    show List.drop 1 [b] = ([] : List Nat) from rfl]
  rw [hbuf]

/-- Entering the payload state with no data and a positive payload length
allocates the full result buffer up front. -/
theorem feedPayload_empty_pos (f : Frame) (hL : 0 < f.payload.length) :
    feedPayload (afterLenMask f) [] =
      ({ afterLenMask f with result := List.replicate f.payload.length 0 },
       .dontStop) := by
  rw [feedPayload]
  simp only [afterLenMask, Parser.init, Nat.sub_zero, List.length_nil]
  rw [if_pos hL]
  simp only [List.isEmpty_nil, reduceIte, writeAt_replicate_zero]
  simp

/-- Entering the payload state with no data and a zero payload length
completes the (empty) frame at once. -/
theorem feedPayload_empty_zero (f : Frame) (hL : f.payload.length = 0) :
    feedPayload (afterLenMask f) [] = (doneParser f, .stop []) := by
  have hpl : f.payload = [] := List.length_eq_zero.mp hL
  rw [feedPayload]
  simp only [afterLenMask, Parser.init, Nat.sub_zero, List.length_nil, hL]
  rw [if_neg (by omega)]
  simp only [List.isEmpty_nil, reduceIte, List.take_nil, List.drop_nil]
  rw [show removeMask f.key [] = [] from rfl]
  simp [doneParser, headerOf, hpl]

theorem feedList_append_dontStop (p p' : Parser) (xs ys : List (List Nat))
    (h : feedList p xs = (p', .dontStop)) :
    feedList p (xs ++ ys) = feedList p' ys := by
  induction xs generalizing p with
  | nil =>
    rw [feedList] at h
    injection h with h1 h2
    subst h1
    simp
  | cons c cs ih =>
    rw [feedList] at h
    rw [List.cons_append, feedList]
    rcases hfeed : feed p c with ⟨q, out⟩
    rw [hfeed] at h
    cases out with
    | dontStop => exact ih q h
    | stop r =>
      injection h with h1 h2
      exact absurd h2 (by simp)

theorem feedList_append_stop (p p' : Parser) (r : List Nat)
    (xs ys : List (List Nat)) (h : feedList p xs = (p', .stop r)) :
    feedList p (xs ++ ys) = (p', .stop r) := by
  induction xs generalizing p with
  | nil =>
    rw [feedList] at h
    injection h with h1 h2
    exact absurd h2 (by simp)
  | cons c cs ih =>
    rw [feedList] at h
    rw [List.cons_append, feedList]
    rcases hfeed : feed p c with ⟨q, out⟩
    rw [hfeed] at h
    cases out with
    | dontStop => exact ih q h
    | stop r' => exact h

/-- A short chunk in the payload state with the result buffer already
allocated: raw bytes are copied in at the consumed offset. -/
theorem feed_payload_accumulate (p : Parser) (data : List Nat)
    (hp : p.pstate = .payload)
    (hlt : data.length < p.payloadLength - p.consumedPayloadLength)
    (hres : p.result.isEmpty = false) (hne : data.length ≠ 0) :
    feed p data =
      ({ p with result := writeAt p.result p.consumedPayloadLength data
                consumedPayloadLength :=
                  p.consumedPayloadLength + data.length }, .dontStop) := by
  rw [feed, if_neg hne, if_neg (by rw [hp]; decide)]
  rw [feedRest2, if_neg (by rw [hp]; decide)]
  rw [feedRest3, if_pos hp]
  rw [feedPayload]
  rw [if_pos hlt]
  rw [if_neg (by rw [hres]; decide)]

/-- A chunk that holds at least the whole remaining payload, with the
result buffer already allocated: the frame completes and the mask is
removed over the assembled payload. -/
theorem feed_payload_complete (p : Parser) (data : List Nat)
    (hp : p.pstate = .payload)
    (hge : ¬ data.length < p.payloadLength - p.consumedPayloadLength)
    (hres : p.result.isEmpty = false) (hne : data.length ≠ 0) :
    feed p data =
      ({ p with
          result := removeMask p.maskingKey (writeAt p.result
            p.consumedPayloadLength
            (data.take (p.payloadLength - p.consumedPayloadLength)))
          consumedPayloadLength := 0
          pstate := .flagsAndPayloadData },
       .stop (data.drop (p.payloadLength - p.consumedPayloadLength))) := by
  rw [feed, if_neg hne, if_neg (by rw [hp]; decide)]
  rw [feedRest2, if_neg (by rw [hp]; decide)]
  rw [feedRest3, if_pos hp]
  rw [feedPayload]
  rw [if_neg hge]
  simp only [hres, Bool.false_eq_true, if_false]

/-- Feeding the remaining payload bytes one at a time from a mid-payload
state completes the frame exactly at the last byte. -/
theorem feedList_payload_run (n : Nat) :
    ∀ (p : Parser) (mp : List Nat) (c : Nat),
      p.pstate = .payload → p.payloadLength = mp.length →
      p.consumedPayloadLength = c →
      p.result = mp.take c ++ List.replicate (mp.length - c) 0 →
      c < mp.length → n = mp.length - c →
      feedList p ((mp.drop c).map fun b => [b]) =
        ({ p with result := removeMask p.maskingKey mp
                  consumedPayloadLength := 0
                  pstate := .flagsAndPayloadData }, .stop []) := by
  induction n with
  | zero =>
    intro p mp c _ _ _ _ hc hn
    omega
  | succ n ih =>
    intro p mp c hp hpl hcons hres hc hn
    have hres' : p.result.isEmpty = false := by
      rw [hres, List.isEmpty_eq_false]
      intro hnil
      have := congrArg List.length hnil
      simp [List.length_take] at this
      omega
    rw [List.drop_eq_getElem_cons hc, List.map_cons, feedList]
    rcases Nat.eq_or_lt_of_le (Nat.succ_le_of_lt hc) with hlast | hmore
    · -- c + 1 = mp.length: this byte completes the frame
      have h1 : p.payloadLength - p.consumedPayloadLength = 1 := by
        rw [hpl, hcons]; omega
      rw [feed_payload_complete p [mp[c]] hp (by rw [h1]; simp)
        hres' (by simp)]
      rw [h1]
      rw [show List.take 1 [mp[c]] = [mp[c]] from rfl,
        show List.drop 1 [mp[c]] = ([] : List Nat) from rfl]
      rw [hres, hcons]
      have hw := writeAt_fill mp c [mp[c]] (by simp; omega)
      rw [hw]
      simp only [List.length_singleton]
      have : mp.take c ++ [mp[c]] ++
          List.replicate (mp.length - c - 1) 0 = mp := by
        rw [show mp.length - c - 1 = 0 from by omega, List.replicate_zero,
          List.append_nil, ← List.concat_eq_append, List.take_concat_get,
          show c + 1 = mp.length from by omega, List.take_length]
      rw [this]
    · -- more than one byte remains: accumulate and recurse
      have hlt : ([mp[c]] : List Nat).length <
          p.payloadLength - p.consumedPayloadLength := by
        rw [hpl, hcons]; simp; omega
      rw [feed_payload_accumulate p [mp[c]] hp hlt hres' (by simp)]
      rw [hres, hcons]
      have hw := writeAt_fill mp c [mp[c]] (by simp; omega)
      rw [hw]
      simp only [List.length_singleton]
      have hstep : mp.take c ++ [mp[c]] ++
          List.replicate (mp.length - c - 1) 0 =
          mp.take (c + 1) ++ List.replicate (mp.length - (c + 1)) 0 := by
        rw [← List.concat_eq_append, List.take_concat_get,
          show mp.length - c - 1 = mp.length - (c + 1) from by omega]
      rw [hstep]
      exact ih _ mp (c + 1) hp hpl (by simp) (by simp)
        (by omega) (by omega)

/-- The final byte of the extended-length-and-mask region: the decoder
parses length and key and enters the payload state — completing the frame
at once when the payload is empty, otherwise allocating the result
buffer. -/
theorem feed_lenmask_last (f : Frame) (hwf : f.wf) (bs0 : List Nat) (c : Nat)
    (hsplit : bs0 ++ [c] = extLenBytes f.payload.length ++ beBytes 4 f.key) :
    feed { afterHeader f with buffer := bs0 } [c] =
      (if f.payload.length = 0 then (doneParser f, FeedOut.stop [])
       else ({ afterLenMask f with
           result := List.replicate f.payload.length 0 }, FeedOut.dontStop)) := by
  have hextlen : (extLenBytes f.payload.length ++ beBytes 4 f.key).length =
      (headerOf f).restOfHeaderLength := by
    rw [List.length_append, beBytes_length, headerOf_restOfHeaderLength]
    omega
  rw [feed]
  rw [if_neg (by simp)]
  rw [if_neg (show ¬ ({ afterHeader f with buffer := bs0 } : Parser).pstate =
    ParsingState.flagsAndPayloadData from fun h => ParsingState.noConfusion h)]
  rw [feedRest2]
  rw [if_pos (show ({ afterHeader f with buffer := bs0 } : Parser).pstate =
    ParsingState.payloadLengthAndMask from rfl)]
  rw [feedLenMask_run' { afterHeader f with buffer := bs0 } (headerOf f)
    (extLenBytes f.payload.length ++ beBytes 4 f.key) c rfl hsplit hextlen]
  obtain ⟨hp1, hp2⟩ := lenmask_parse f hwf
  rw [hp1, hp2]
  rw [feedRest3]
  rw [if_pos (show ParsingState.payload = ParsingState.payload from rfl)]
  rcases Nat.eq_zero_or_pos f.payload.length with hL | hL
  · rw [if_pos hL]
    exact feedPayload_empty_zero f hL
  · rw [if_neg (by omega)]
    exact feedPayload_empty_pos f hL

/-- Feeding the extended-length-and-mask bytes one at a time: the decoder
accumulates them and enters the payload state at the last one. -/
theorem feedList_lenmask_run (f : Frame) (hwf : f.wf) (cs : List Nat) :
    ∀ (bs0 : List Nat) (rest : List (List Nat)),
      bs0 ++ cs = extLenBytes f.payload.length ++ beBytes 4 f.key →
      cs ≠ [] →
      feedList { afterHeader f with buffer := bs0 }
          ((cs.map fun b => [b]) ++ rest) =
        (if f.payload.length = 0 then (doneParser f, FeedOut.stop [])
         else feedList { afterLenMask f with
             result := List.replicate f.payload.length 0 } rest) := by
  induction cs with
  | nil => exact fun bs0 rest _ hne => absurd rfl hne
  | cons c cs ih =>
    intro bs0 rest hsplit hne
    rcases eq_or_ne cs [] with hcs | hcs
    · subst hcs
      rw [show (([c] : List Nat).map fun b => [b]) ++ rest = [c] :: rest
        from rfl]
      rw [feedList]
      rw [feed_lenmask_last f hwf bs0 c hsplit]
      rcases Nat.eq_zero_or_pos f.payload.length with hL | hL
      · rw [if_pos hL, if_pos hL]
      · rw [if_neg (by omega), if_neg (by omega)]
    · have hlens := congrArg List.length hsplit
      simp only [List.length_append, List.length_cons, beBytes_length] at hlens
      have hbnd : bs0.length + 1 <
          (({ afterHeader f with buffer := bs0 } : Parser).header.getD
            (mkFrameHeader 0 0)).restOfHeaderLength := by
        rw [show ({ afterHeader f with buffer := bs0 } : Parser).header =
          some (headerOf f) from rfl, Option.getD_some,
          headerOf_restOfHeaderLength]
        have : cs.length ≠ 0 := fun h => hcs (List.length_eq_zero.mp h)
        omega
      rw [List.map_cons, List.cons_append, feedList]
      rw [feed_lenmask_accum { afterHeader f with buffer := bs0 } [c] rfl
        (by simpa using hbnd) (by simp)]
      exact ih (bs0 ++ [c]) rest
        (by rw [List.append_assoc]; exact hsplit) hcs

theorem feedList_cons_dontStop (p q : Parser) (c : List Nat)
    (cs : List (List Nat)) (h : feed p c = (q, .dontStop)) :
    feedList p (c :: cs) = feedList q cs := by
  rw [feedList, h]

theorem feedList_cons_stop (p q : Parser) (c r : List Nat)
    (cs : List (List Nat)) (h : feed p c = (q, .stop r)) :
    feedList p (c :: cs) = (q, .stop r) := by
  rw [feedList, h]

/-- The first header byte alone is buffered. -/
theorem feed_first_byte (b : Nat) :
    feed Parser.init [b] = ({ Parser.init with buffer := [b] }, .dontStop) := by
  rw [feed_flags_accum Parser.init [b] rfl (by simp [Parser.init]) (by simp)]
  rfl

/-- Feeding a whole well-formed masked frame one byte at a time yields the
same final decoder state as feeding it in one chunk. -/
theorem feed_bytewise (f : Frame) (hwf : f.wf) :
    feedList Parser.init ((maskedFrameBytes f).map fun b => [b]) =
      (doneParser f, .stop []) := by
  have hshape : (maskedFrameBytes f).map (fun b => [b]) =
      [(if f.fin then 128 else 0) + f.opcode] ::
      [128 + lenField f.payload.length] ::
      (((extLenBytes f.payload.length ++ beBytes 4 f.key).map fun b => [b]) ++
        ((removeMask f.key f.payload).map fun b => [b])) := by
    simp [maskedFrameBytes, List.map_append]
  rw [hshape]
  rw [feedList_cons_dontStop _ _ _ _ (feed_first_byte _)]
  rw [feedList_cons_dontStop _ _ _ _ (feed_second_byte f hwf)]
  have hemne : extLenBytes f.payload.length ++ beBytes 4 f.key ≠ [] := by
    intro hcon
    have := congrArg List.length hcon
    simp [beBytes_length] at this
  have hB := feedList_lenmask_run f hwf
    (extLenBytes f.payload.length ++ beBytes 4 f.key) []
    ((removeMask f.key f.payload).map fun b => [b]) (by simp) hemne
  rw [show ({ afterHeader f with buffer := [] } : Parser) = afterHeader f
    from rfl] at hB
  rw [hB]
  rcases Nat.eq_zero_or_pos f.payload.length with hL | hL
  · rw [if_pos hL]
  · rw [if_neg (by omega)]
    have hC := feedList_payload_run f.payload.length
      { afterLenMask f with result := List.replicate f.payload.length 0 }
      (removeMask f.key f.payload) 0 rfl
      (removeMask_length f.key f.payload).symm rfl
      (by simp [removeMask_length])
      (by rw [removeMask_length]; omega)
      (by rw [removeMask_length]; omega)
    simp only [List.drop_zero] at hC
    rw [hC]
    have hinv : removeMask ({ afterLenMask f with
        result := List.replicate f.payload.length 0 } : Parser).maskingKey
        (removeMask f.key f.payload) = f.payload := by
      rw [show ({ afterLenMask f with
        result := List.replicate f.payload.length 0 } : Parser).maskingKey =
        f.key from rfl, removeMask_removeMask]
    rw [hinv]
    rfl

/-- The header block on a fresh decoder for an arbitrary accepted
two-byte header. -/
theorem feedFlags_hdr (b0 b1 : Nat) (t : List Nat)
    (hok : ¬ ((mkFrameHeader b0 b1).masked = false ∨
      ((mkFrameHeader b0 b1).rsv1 ||| (mkFrameHeader b0 b1).rsv2 |||
        (mkFrameHeader b0 b1).rsv3) ≠ 0 ∨
      (mkFrameHeader b0 b1).isOpcodeKnown = false)) :
    feedFlags Parser.init (b0 :: b1 :: t) =
      Sum.inr ({ Parser.init with
                 header := some (mkFrameHeader b0 b1)
                 pstate := .payloadLengthAndMask }, t) := by
  simp only [feedFlags, Parser.init, List.length_nil, List.length_cons,
    Nat.zero_add, List.nil_append, Nat.sub_zero]
  rw [if_pos (by omega)]
  simp only [List.take_succ_cons, List.take_zero, List.drop_succ_cons,
    List.drop_zero, List.headD_cons, List.drop_one, List.tail_cons]
  rw [if_neg hok]

/-- The header block on a fresh decoder for a violating two-byte header:
immediate error stop. -/
theorem feedFlags_hdr_bad (b0 b1 : Nat) (t : List Nat)
    (hviol : (mkFrameHeader b0 b1).masked = false ∨
      ((mkFrameHeader b0 b1).rsv1 ||| (mkFrameHeader b0 b1).rsv2 |||
        (mkFrameHeader b0 b1).rsv3) ≠ 0 ∨
      (mkFrameHeader b0 b1).isOpcodeKnown = false) :
    feedFlags Parser.init (b0 :: b1 :: t) =
      Sum.inl ({ Parser.init with
                 header := some (mkFrameHeader b0 b1)
                 cstate := .error }, .stop t) := by
  simp only [feedFlags, Parser.init, List.length_nil, List.length_cons,
    Nat.zero_add, List.nil_append, Nat.sub_zero]
  rw [if_pos (by omega)]
  simp only [List.take_succ_cons, List.take_zero, List.drop_succ_cons,
    List.drop_zero, List.headD_cons, List.drop_one, List.tail_cons]
  rw [if_pos hviol]

/-- Entering the payload state with no data, an empty result and a
positive declared length allocates the whole result buffer at once. -/
theorem feedPayload_empty_alloc (p : Parser) (hres : p.result = [])
    (hcons : p.consumedPayloadLength = 0) (hL : 0 < p.payloadLength) :
    feedPayload p [] =
      ({ p with result := List.replicate p.payloadLength 0
                consumedPayloadLength := 0 }, .dontStop) := by
  rw [feedPayload, hcons]
  simp only [Nat.sub_zero, List.length_nil]
  rw [if_pos hL]
  rw [hres]
  simp only [List.isEmpty_nil, reduceIte, writeAt_replicate_zero]
  simp

/-- The first, incomplete payload chunk of a frame: raw bytes are copied
into a freshly allocated full-size buffer. -/
theorem feedPayload_first_chunk (f : Frame) (q : List Nat)
    (hq : q.length < f.payload.length) :
    feedPayload (afterLenMask f) q =
      ({ afterLenMask f with
          result := q ++ List.replicate (f.payload.length - q.length) 0
          consumedPayloadLength := q.length }, .dontStop) := by
  rw [feedPayload]
  simp only [afterLenMask, Parser.init, Nat.sub_zero]
  rw [if_pos hq]
  simp only [List.isEmpty_nil, reduceIte, writeAt_replicate_zero]

/-- The outbound framer's bytes, reinterpreted as a received masked frame
(mask bit set, key inserted, payload XOR-masked), are exactly the wire
bytes of the corresponding well-formed masked frame. -/
theorem asReceived_sendData (op key : Nat) (payload : List Nat) :
    asReceived key (sendDataBytes op payload) =
      maskedFrameBytes ⟨true, op, key, payload⟩ := by
  rcases le_or_lt payload.length 125 with h1 | h1
  · rw [sendDataBytes, if_neg (by omega), if_neg (by omega)]
    rw [asReceived]
    have hne126 : (payload.length = 126) = False := by simp; omega
    have hne127 : (payload.length = 127) = False := by simp; omega
    simp only [hne126, hne127, if_false, List.take_zero, List.drop_zero,
      List.nil_append]
    simp [maskedFrameBytes, lenField, extLenBytes, h1, Nat.add_comm]
  · rcases le_or_lt payload.length 65535 with h2 | h2
    · rw [sendDataBytes, if_pos ⟨by omega, h2⟩]
      rw [asReceived]
      have he1 : ((126 : Nat) = 126) = True := by simp
      have hlb : (beBytes 2 payload.length).length = 2 := beBytes_length _ _
      simp only [he1, if_true, List.take_left' hlb, List.drop_left' hlb]
      simp [maskedFrameBytes, lenField, extLenBytes, not_le.mpr h1, h2]
    · rw [sendDataBytes, if_neg (by omega), if_pos h2]
      rw [asReceived]
      have he1 : ((127 : Nat) = 126) = False := by simp
      have he2 : ((127 : Nat) = 127) = True := by simp
      have hlb : (beBytes 8 payload.length).length = 8 := beBytes_length _ _
      simp only [he1, he2, if_false, if_true, List.take_left' hlb,
        List.drop_left' hlb]
      simp [maskedFrameBytes, lenField, extLenBytes, not_le.mpr h1,
        not_le.mpr h2]

/-- C1: for every well-formed masked WebSocket frame, feeding its bytes
one 1-byte chunk at a time yields the same decoded payload — and the same
final decoder state, back in the initial header-awaiting state — as
feeding the whole frame as a single chunk. -/
theorem frame_fragmentation_invariance (f : Frame) (hwf : f.wf) :
    feed Parser.init (maskedFrameBytes f) = (doneParser f, .stop []) ∧
    feedList Parser.init ((maskedFrameBytes f).map fun b => [b]) =
      (doneParser f, .stop []) ∧
    (doneParser f).result = f.payload ∧
    (doneParser f).pstate = ParsingState.flagsAndPayloadData := by
  have h1 := feed_whole f hwf []
  rw [List.append_nil] at h1
  exact ⟨h1, feed_bytewise f hwf, rfl, rfl⟩

theorem frame_fragmentation_invariance_witness :
    Frame.wf ⟨true, 1, 305419896, [72, 101, 108, 108, 111]⟩ ∧
    (feed Parser.init
        (maskedFrameBytes ⟨true, 1, 305419896, [72, 101, 108, 108, 111]⟩) =
      (doneParser ⟨true, 1, 305419896, [72, 101, 108, 108, 111]⟩,
        .stop []) ∧
     feedList Parser.init
        ((maskedFrameBytes
          ⟨true, 1, 305419896, [72, 101, 108, 108, 111]⟩).map fun b => [b]) =
      (doneParser ⟨true, 1, 305419896, [72, 101, 108, 108, 111]⟩,
        .stop []) ∧
     (doneParser ⟨true, 1, 305419896, [72, 101, 108, 108, 111]⟩).result =
      [72, 101, 108, 108, 111] ∧
     (doneParser ⟨true, 1, 305419896, [72, 101, 108, 108, 111]⟩).pstate =
      ParsingState.flagsAndPayloadData) :=
  ⟨by decide, frame_fragmentation_invariance
    ⟨true, 1, 305419896, [72, 101, 108, 108, 111]⟩ (by decide)⟩

/-- C2: a two-byte header with the mask bit clear, or any RSV bit set, or
an unknown opcode, makes the decoder transition its connection state to
`error` and stop, with no payload emitted (the decoded result stays
empty). -/
theorem invalid_header_rejected (b0 b1 : Nat) (rest : List Nat)
    (hviol : (mkFrameHeader b0 b1).masked = false ∨
      ((mkFrameHeader b0 b1).rsv1 ||| (mkFrameHeader b0 b1).rsv2 |||
        (mkFrameHeader b0 b1).rsv3) ≠ 0 ∨
      (mkFrameHeader b0 b1).isOpcodeKnown = false) :
    feed Parser.init (b0 :: b1 :: rest) =
      ({ Parser.init with
         header := some (mkFrameHeader b0 b1)
         cstate := .error }, .stop rest) ∧
    (feed Parser.init (b0 :: b1 :: rest)).1.result = [] ∧
    (feed Parser.init (b0 :: b1 :: rest)).1.cstate = ConnectionState.error := by
  have hfeed : feed Parser.init (b0 :: b1 :: rest) =
      ({ Parser.init with
         header := some (mkFrameHeader b0 b1)
         cstate := .error }, .stop rest) := by
    rw [feed, if_neg (by simp),
      if_pos (show Parser.init.pstate = ParsingState.flagsAndPayloadData
        from rfl)]
    rw [feedFlags_hdr_bad b0 b1 rest hviol]
    rw [feedRest2]
  exact ⟨hfeed, by rw [hfeed]; simp [Parser.init], by simp [hfeed]⟩

theorem invalid_header_rejected_witness :
    ((mkFrameHeader 129 5).masked = false ∨
      ((mkFrameHeader 129 5).rsv1 ||| (mkFrameHeader 129 5).rsv2 |||
        (mkFrameHeader 129 5).rsv3) ≠ 0 ∨
      (mkFrameHeader 129 5).isOpcodeKnown = false) ∧
    (feed Parser.init (129 :: 5 :: [1, 2, 3]) =
      ({ Parser.init with
         header := some (mkFrameHeader 129 5)
         cstate := .error }, .stop [1, 2, 3]) ∧
     (feed Parser.init (129 :: 5 :: [1, 2, 3])).1.result = [] ∧
     (feed Parser.init (129 :: 5 :: [1, 2, 3])).1.cstate =
       ConnectionState.error) :=
  ⟨by decide, invalid_header_rejected 129 5 [1, 2, 3] (by decide)⟩

/-- C3: encoding a payload with `send_data`, then masking it as if
received from a client and decoding it, yields back exactly the original
payload, for each boundary length in {0, 1, 125, 126, 65535, 65536}; the
encoder picks the 7-bit literal length for L ≤ 125, the 16-bit big-endian
extended length for 126 ≤ L ≤ 65535, and the 64-bit big-endian extended
length for larger L. -/
theorem encode_decode_roundtrip (op key : Nat) (payload : List Nat)
    (hop : op ∈ knownOpcodes) (hkey : key < 2 ^ 32)
    (hbytes : payload.all (· < 256) = true)
    (hL : payload.length = 0 ∨ payload.length = 1 ∨ payload.length = 125 ∨
      payload.length = 126 ∨ payload.length = 65535 ∨
      payload.length = 65536) :
    feed Parser.init (asReceived key (sendDataBytes op payload)) =
      (doneParser ⟨true, op, key, payload⟩, .stop []) ∧
    (doneParser ⟨true, op, key, payload⟩).result = payload ∧
    (payload.length ≤ 125 → sendDataBytes op payload =
      (128 + op) :: payload.length :: payload) ∧
    (126 ≤ payload.length → payload.length ≤ 65535 →
      sendDataBytes op payload =
        (128 + op) :: 126 :: (beBytes 2 payload.length ++ payload)) ∧
    (65535 < payload.length → sendDataBytes op payload =
      (128 + op) :: 127 :: (beBytes 8 payload.length ++ payload)) := by
  have hL64 : payload.length < 2 ^ 64 := by
    have h64 : (2 : Nat) ^ 64 = 18446744073709551616 := by norm_num
    rw [h64]
    rcases hL with h | h | h | h | h | h <;> omega
  have hwf : (⟨true, op, key, payload⟩ : Frame).wf := ⟨hop, hkey, hbytes, hL64⟩
  refine ⟨?_, rfl, ?_, ?_, ?_⟩
  · rw [asReceived_sendData op key payload]
    have h1 := feed_whole ⟨true, op, key, payload⟩ hwf []
    rwa [List.append_nil] at h1
  · intro h1
    rw [sendDataBytes, if_neg (by omega), if_neg (by omega)]
  · intro h1 h2
    rw [sendDataBytes, if_pos ⟨h1, h2⟩]
  · intro h1
    rw [sendDataBytes, if_neg (by omega), if_pos h1]

theorem encode_decode_roundtrip_witness :
    (2 ∈ knownOpcodes ∧ (7 : Nat) < 2 ^ 32 ∧
      ([9] : List Nat).all (· < 256) = true ∧
      (([9] : List Nat).length = 0 ∨ ([9] : List Nat).length = 1 ∨
        ([9] : List Nat).length = 125 ∨
        ([9] : List Nat).length = 126 ∨
        ([9] : List Nat).length = 65535 ∨
        ([9] : List Nat).length = 65536)) ∧
    feed Parser.init (asReceived 7 (sendDataBytes 2 [9])) =
      (doneParser ⟨true, 2, 7, [9]⟩, .stop []) := by
  refine ⟨⟨by decide, by decide, by decide, by decide⟩, ?_⟩
  exact (encode_decode_roundtrip 2 7 [9] (by decide) (by decide)
    (by decide) (by decide)).1

/-- The header record of a masked frame whose length field is the 64-bit
sentinel 127. -/
def hdr127 (fin : Bool) (op : Nat) : FrameHeader :=
  { fin := if fin then 1 else 0, rsv1 := 0, rsv2 := 0, rsv3 := 0,
    opcode := op, masked := true, length := 127 }

/-- C10: the decoder enforces no upper bound on the declared payload
length.  Any masked header with length field 127 and any 64-bit extended
length L is accepted without error, `payload_length` is recorded as L,
and — before any payload byte has arrived — a result buffer of the full
length L is allocated. -/
theorem no_payload_length_bound (fin : Bool) (op L key : Nat)
    (hop : op ∈ knownOpcodes) (hL0 : 0 < L) (hL : L < 2 ^ 64)
    (hkey : key < 2 ^ 32) :
    feed Parser.init (((if fin then 128 else 0) + op) :: 255 ::
        (beBytes 8 L ++ beBytes 4 key)) =
      ({ Parser.init with
         header := some (hdr127 fin op)
         pstate := .payload
         payloadLength := L
         maskingKey := key
         result := List.replicate L 0 }, .dontStop) ∧
    (feed Parser.init (((if fin then 128 else 0) + op) :: 255 ::
        (beBytes 8 L ++ beBytes 4 key))).1.cstate = ConnectionState.valid ∧
    (feed Parser.init (((if fin then 128 else 0) + op) :: 255 ::
        (beBytes 8 L ++ beBytes 4 key))).1.result.length = L := by
  have hhdr : mkFrameHeader ((if fin then 128 else 0) + op) 255 =
      hdr127 fin op := by
    rw [show (255 : Nat) = 128 + 127 from rfl]
    rw [mkFrameHeader_wire fin op 127 (opcode_le_15 op hop) (by omega)]
    rfl
  have hknown : (hdr127 fin op).isOpcodeKnown = true := by
    rw [FrameHeader.isOpcodeKnown]
    exact (contains_iff_mem _ _).mpr hop
  have hok : ¬ ((mkFrameHeader ((if fin then 128 else 0) + op) 255).masked =
      false ∨
      ((mkFrameHeader ((if fin then 128 else 0) + op) 255).rsv1 |||
        (mkFrameHeader ((if fin then 128 else 0) + op) 255).rsv2 |||
        (mkFrameHeader ((if fin then 128 else 0) + op) 255).rsv3) ≠ 0 ∨
      (mkFrameHeader ((if fin then 128 else 0) + op) 255).isOpcodeKnown =
        false) := by
    rw [hhdr]
    intro hcon
    rcases hcon with h | h | h
    · exact absurd h (by simp [hdr127])
    · exact h (by simp [hdr127])
    · rw [hknown] at h
      exact absurd h (by decide)
  have hmain : feed Parser.init (((if fin then 128 else 0) + op) :: 255 ::
      (beBytes 8 L ++ beBytes 4 key)) =
      ({ Parser.init with
         header := some (hdr127 fin op)
         pstate := .payload
         payloadLength := L
         maskingKey := key
         result := List.replicate L 0 }, .dontStop) := by
    rw [feed, if_neg (by simp),
      if_pos (show Parser.init.pstate = ParsingState.flagsAndPayloadData
        from rfl)]
    rw [feedFlags_hdr _ _ _ hok, hhdr]
    rw [feedRest2,
      if_pos (show ParsingState.payloadLengthAndMask =
        ParsingState.payloadLengthAndMask from rfl)]
    rw [show beBytes 8 L ++ beBytes 4 key =
      (beBytes 8 L ++ beBytes 4 key) ++ ([] : List Nat)
      from (List.append_nil _).symm]
    rw [feedLenMask_run _ (hdr127 fin op)
      (beBytes 8 L ++ beBytes 4 key) [] rfl rfl
      (by simp [hdr127, beBytes_length, FrameHeader.restOfHeaderLength])]
    have he1 : ((hdr127 fin op).length = 126) = False := by simp [hdr127]
    have he2 : ((hdr127 fin op).length = 127) = True := by simp [hdr127]
    have hlb : (beBytes 8 L).length = 8 := beBytes_length _ _
    have hmlen : (beBytes 4 key).length = 4 := beBytes_length _ _
    simp only [he1, he2, if_false, if_true, List.take_left' hlb,
      List.drop_left' hlb]
    rw [beVal_beBytes 8 L (by norm_num at hL ⊢; omega)]
    rw [List.take_of_length_le (le_of_eq hmlen),
      beVal_beBytes 4 key (by norm_num at hkey ⊢; omega)]
    rw [feedRest3,
      if_pos (show ParsingState.payload = ParsingState.payload from rfl)]
    rw [feedPayload_empty_alloc _ rfl rfl hL0]
    rfl
  refine ⟨hmain, by rw [hmain]; rfl, by rw [hmain]; simp⟩

theorem no_payload_length_bound_witness :
    (2 ∈ knownOpcodes ∧ (0 : Nat) < 3 ∧ (3 : Nat) < 2 ^ 64 ∧
      (1 : Nat) < 2 ^ 32) ∧
    feed Parser.init (((if true then 128 else 0) + 2) :: 255 ::
        (beBytes 8 3 ++ beBytes 4 1)) =
      ({ Parser.init with
         header := some (hdr127 true 2)
         pstate := .payload
         payloadLength := 3
         maskingKey := 1
         result := List.replicate 3 0 }, .dontStop) := by
  refine ⟨⟨by decide, by decide, by decide, by decide⟩, ?_⟩
  exact (no_payload_length_bound true 2 3 1 (by decide) (by decide)
    (by decide) (by decide)).1

/-! ## Connection-level behaviour -/

theorem readLoop_done (fuel : Nat) (c : Conn) (p : Parser)
    (chunks : List (List Nat)) (h : c.done = true) :
    readLoop c p chunks fuel = (c, p) := by
  cases fuel with
  | zero => rfl
  | succ n => rw [readLoop, if_pos h]

/-- One consume call over a stream whose first chunk is a whole
well-formed frame. -/
theorem consume_frame (f : Frame) (hwf : f.wf) (rest : List (List Nat)) :
    consume Parser.init (maskedFrameBytes f :: rest) = (doneParser f, rest) := by
  rw [consume]
  have h1 := feed_whole f hwf []
  rw [List.append_nil] at h1
  rw [h1]
  rfl

/-- `read_one` dispatch for a decoded CLOSE frame: the connection runs
`close(true)`. -/
theorem readOne_close_frame (c : Conn) (p : Parser)
    (hv : p.cstate = ConnectionState.valid) (hop : p.opcode = 8) :
    readOne c p = (close c true, p) := by
  rw [readOne, if_pos hv, if_neg (by rw [hop]; decide), if_pos hop]

/-- C4 counterexample: EOF arriving after one header byte (a frame in
progress) leaves the decoder in the `closed` state — not `error` — and
`read_one` then takes the very same `close(false)` path as a clean EOF,
so the truncated frame is not surfaced as an error. -/
theorem eof_mid_frame_counterexample :
    (feed (feed Parser.init [129]).1 []).1.cstate = ConnectionState.closed ∧
    (feed (feed Parser.init [129]).1 []).1.cstate ≠ ConnectionState.error ∧
    readOne Conn.init (feed (feed Parser.init [129]).1 []).1 =
      (close Conn.init false, (feed (feed Parser.init [129]).1 []).1) := by
  decide

/-- C4 amended: a zero-length chunk always transitions the decoder to
`closed`, whether or not a frame is in progress, and `read_one` then
performs the same `close(false)` teardown as for a clean end of
stream — truncated frames are not distinguished from a clean close. -/
theorem eof_always_closed (p : Parser) (c : Conn) :
    feed p [] = ({ p with cstate := .closed }, .stop []) ∧
    readOne c { p with cstate := .closed } =
      (close c false, { p with cstate := .closed }) := by
  constructor
  · rw [feed, if_pos (show ([] : List Nat).length = 0 from rfl)]
  · rw [readOne,
      if_neg (show ¬ ({ p with cstate := ConnectionState.closed } :
        Parser).cstate = ConnectionState.valid from
        fun h => ConnectionState.noConfusion h),
      if_pos (show ({ p with cstate := ConnectionState.closed } :
        Parser).cstate = ConnectionState.closed from rfl)]

/-- C5 counterexample: after an unmasked inbound frame the decoder is in
the `error` state, and `read_one` writes `[0x88, 0x00]` — a CLOSE frame —
to the wire, contradicting the claim that no CLOSE frame is emitted on a
protocol violation. -/
theorem error_emits_close_counterexample :
    (feed Parser.init [129, 5]).1.cstate = ConnectionState.error ∧
    (readOne Conn.init (feed Parser.init [129, 5]).1).1.wire = [136, 0] ∧
    sendDataBytes 8 [] = [136, 0] := by
  decide

/-- C5 amended: on a decoder protocol error `read_one` tears the
connection down via `close(true)`, which first writes a CLOSE frame
(0x88 0x00) to the wire; only the EOF path `close(false)` tears down
without writing a CLOSE frame. -/
theorem error_teardown (c : Conn) (p : Parser)
    (he : p.cstate = ConnectionState.error) :
    readOne c p = (close c true, p) ∧
    (close c true).wire = c.wire ++ sendDataBytes 8 [] ∧
    sendDataBytes 8 [] = [136, 0] ∧
    (close c true).done = true ∧
    (close c false).wire = c.wire := by
  refine ⟨?_, ?_, by decide, rfl, ?_⟩
  · rw [readOne,
      if_neg (show ¬ p.cstate = ConnectionState.valid from by
        rw [he]; exact fun h => ConnectionState.noConfusion h),
      if_neg (show ¬ p.cstate = ConnectionState.closed from by
        rw [he]; exact fun h => ConnectionState.noConfusion h)]
  · simp [close]
  · simp [close]

theorem error_teardown_witness :
    ({ Parser.init with cstate := ConnectionState.error } : Parser).cstate =
      ConnectionState.error ∧
    readOne Conn.init { Parser.init with cstate := ConnectionState.error } =
      (close Conn.init true,
        { Parser.init with cstate := ConnectionState.error }) :=
  ⟨rfl, (error_teardown Conn.init
    { Parser.init with cstate := ConnectionState.error } rfl).1⟩

/-- C6 counterexample: after receiving a valid CLOSE frame, the
connection has shut down only the output direction of the socket —
`shutdown_input` is never called on this path — so "both directions" is
not what the code does. -/
theorem close_frame_no_input_shutdown_counterexample :
    (readLoop Conn.init Parser.init [[136, 128, 1, 2, 3, 4]] 5).1.wire =
      [136, 0] ∧
    (readLoop Conn.init Parser.init [[136, 128, 1, 2, 3, 4]] 5).1.done =
      true ∧
    (readLoop Conn.init Parser.init
      [[136, 128, 1, 2, 3, 4]] 5).1.outputShutdown = true ∧
    (readLoop Conn.init Parser.init
      [[136, 128, 1, 2, 3, 4]] 5).1.inputShutdown = false := by
  decide

/-- C6 amended: for a connected connection, a valid CLOSE frame makes the
read loop send exactly one CLOSE frame (0x88 0x00) in response — no
matter how many further chunks or loop iterations follow — set `done`,
close both payload queues, and shut down the socket's write direction
only; the read direction is left to external shutdown. -/
theorem close_frame_cooperative_close (f : Frame) (hwf : f.wf)
    (hop : f.opcode = 8) (rest : List (List Nat)) (fuel : Nat) :
    readLoop Conn.init Parser.init (maskedFrameBytes f :: rest) (fuel + 1) =
      ({ done := true, inputQClosed := true, outputQClosed := true,
         inputShutdown := false, outputShutdown := true,
         wire := [136, 0], inbound := [] }, doneParser f) := by
  rw [readLoop, if_neg (by decide)]
  rw [consume_frame f hwf rest]
  show readLoop (readOne Conn.init (doneParser f)).1
    (readOne Conn.init (doneParser f)).2 rest fuel = _
  rw [readOne_close_frame Conn.init (doneParser f) rfl hop]
  rw [readLoop_done fuel _ _ _ rfl]
  rfl

theorem close_frame_cooperative_close_witness :
    (Frame.wf ⟨true, 8, 16909060, []⟩ ∧
      (⟨true, 8, 16909060, []⟩ : Frame).opcode = 8) ∧
    readLoop Conn.init Parser.init
        (maskedFrameBytes ⟨true, 8, 16909060, []⟩ :: []) 1 =
      ({ done := true, inputQClosed := true, outputQClosed := true,
         inputShutdown := false, outputShutdown := true,
         wire := [136, 0], inbound := [] },
       doneParser ⟨true, 8, 16909060, []⟩) :=
  ⟨⟨by decide, by decide⟩,
    close_frame_cooperative_close ⟨true, 8, 16909060, []⟩ (by decide)
      (by decide) [] 0⟩

/-! ## Handshake claims -/

set_option maxRecDepth 100000 in
/-- C7: for the RFC 6455 worked example key
`dGhlIHNhbXBsZSBub25jZQ==`, the accept key
base64(sha1(key ++ magic)) equals `s3pPLMBiTxaQ9kYGzzhZRbK+xOo=`, and the
handshake writes exactly this value right after the reply text ending in
`Sec-WebSocket-Accept: `. -/
theorem handshake_accept_key :
    sha1Base64 ("dGhlIHNhbXBsZSBub25jZQ==" ++ magicKeySuffix) =
      "s3pPLMBiTxaQ9kYGzzhZRbK+xOo=" ∧
    (readHttpUpgradeRequest [""] false false
        { headers := [("Upgrade", "websocket"),
          ("Sec-Websocket-Key", "dGhlIHNhbXBsZSBub25jZQ==")] }).1 =
      httpUpgradeReplyTemplate ++ "s3pPLMBiTxaQ9kYGzzhZRbK+xOo=" ++
        "\r\n\r\n" ∧
    "Sec-WebSocket-Accept: ".data.isSuffixOf httpUpgradeReplyTemplate.data =
      true := by
  refine ⟨by decide, ?_, by decide⟩
  show httpUpgradeReplyTemplate ++
      sha1Base64 ("dGhlIHNhbXBsZSBub25jZQ==" ++ magicKeySuffix) ++
      "" ++ "\r\n\r\n" = _
  decide

/-- C8: if the Sec-WebSocket-Protocol header names a subprotocol with no
registered handler, the handshake fails with the unsupported-subprotocol
error and writes zero bytes. -/
theorem unsupported_subprotocol_no_bytes (handlers : List String)
    (req : Request) (hup : req.getHeader "Upgrade" = "websocket")
    (hsub : handlers.contains
      (req.getHeader "Sec-WebSocket-Protocol") = false) :
    readHttpUpgradeRequest handlers false false req =
      ("", .error .unsupportedSubprotocol) := by
  rw [readHttpUpgradeRequest]
  rw [if_neg (by simp)]
  rw [if_neg (by simp)]
  rw [if_neg (by simp [hup])]
  have hns : ¬ (handlers.contains
      (req.getHeader "Sec-WebSocket-Protocol") = true) := by
    rw [hsub]; decide
  rw [if_pos hns]

theorem unsupported_subprotocol_no_bytes_witness :
    (({ headers := [("Upgrade", "websocket"),
        ("Sec-WebSocket-Protocol", "chat")] } : Request).getHeader
        "Upgrade" = "websocket" ∧
      (["", "echo"] : List String).contains
        (({ headers := [("Upgrade", "websocket"),
          ("Sec-WebSocket-Protocol", "chat")] } : Request).getHeader
          "Sec-WebSocket-Protocol") = false) ∧
    readHttpUpgradeRequest ["", "echo"] false false
        { headers := [("Upgrade", "websocket"),
          ("Sec-WebSocket-Protocol", "chat")] } =
      ("", .error .unsupportedSubprotocol) :=
  ⟨⟨by decide, by decide⟩,
    unsupported_subprotocol_no_bytes ["", "echo"]
      { headers := [("Upgrade", "websocket"),
        ("Sec-WebSocket-Protocol", "chat")] } (by decide) (by decide)⟩

/-- C9 counterexample: a TEXT frame with payload length 2, masking key
0xFF000000, fed as header+key+first-payload-byte and then the second
payload byte.  After the first call the accumulated result holds the
still-masked wire byte 190, not the unmasked payload byte 65 that the
completed frame later yields — so the bytes accumulated mid-frame are NOT
already unmasked. -/
theorem streaming_unmask_counterexample :
    (feed Parser.init [129, 130, 255, 0, 0, 0, 190]).1.result = [190, 0] ∧
    (feed (feed Parser.init [129, 130, 255, 0, 0, 0, 190]).1 [66]).1.result =
      [65, 66] ∧
    (190 : Nat) ≠ 65 := by
  decide

/-- C9 amended: while a frame's payload is only partially consumed, the
accumulated result buffer holds the RAW (still-masked) wire bytes — the
first `c` bytes of the masked payload, the rest zero-filled — and the XOR
unmask is applied as a single pass over the whole assembled payload only
when the final byte arrives, upon which the decoder emits the unmasked
payload. -/
theorem unmask_is_post_pass (f : Frame) (hwf : f.wf) (c : Nat)
    (hcL : c < f.payload.length) :
    feed Parser.init ((maskedFrameBytes f).take
        (2 + (extLenBytes f.payload.length).length + 4 + c)) =
      ({ afterLenMask f with
          result := (removeMask f.key f.payload).take c ++
            List.replicate (f.payload.length - c) 0
          consumedPayloadLength := c }, .dontStop) ∧
    feed { afterLenMask f with
          result := (removeMask f.key f.payload).take c ++
            List.replicate (f.payload.length - c) 0
          consumedPayloadLength := c }
        ((maskedFrameBytes f).drop
          (2 + (extLenBytes f.payload.length).length + 4 + c)) =
      (doneParser f, .stop []) := by
  have hmp : (removeMask f.key f.payload).length = f.payload.length :=
    removeMask_length _ _
  have hemlen : (extLenBytes f.payload.length ++ beBytes 4 f.key).length =
      (extLenBytes f.payload.length).length + 4 := by
    simp [beBytes_length]
  have hqlen : ((removeMask f.key f.payload).take c).length = c := by
    simp [List.length_take]
    omega
  constructor
  · have htake : (maskedFrameBytes f).take
        (2 + (extLenBytes f.payload.length).length + 4 + c) =
        ((if f.fin then 128 else 0) + f.opcode) ::
        (128 + lenField f.payload.length) ::
        (extLenBytes f.payload.length ++ beBytes 4 f.key ++
          (removeMask f.key f.payload).take c) := by
      rw [maskedFrameBytes]
      rw [show 2 + (extLenBytes f.payload.length).length + 4 + c =
        ((extLenBytes f.payload.length).length + 4 + c) + 1 + 1 from by omega]
      rw [List.take_succ_cons, List.take_succ_cons]
      rw [← hemlen, List.take_append]
    rw [htake]
    rw [feed, if_neg (by simp),
      if_pos (show Parser.init.pstate = ParsingState.flagsAndPayloadData
        from rfl)]
    rw [show extLenBytes f.payload.length ++ beBytes 4 f.key ++
      (removeMask f.key f.payload).take c =
      extLenBytes f.payload.length ++ beBytes 4 f.key ++
      ((removeMask f.key f.payload).take c) from rfl]
    rw [feedFlags_wf f hwf]
    rw [feedRest2,
      if_pos (show (afterHeader f).pstate = ParsingState.payloadLengthAndMask
        from rfl)]
    rw [feedLenMask_wf f hwf]
    rw [feedRest3,
      if_pos (show (afterLenMask f).pstate = ParsingState.payload from rfl)]
    rw [feedPayload_first_chunk f ((removeMask f.key f.payload).take c)
      (by rw [hqlen]; omega)]
    rw [hqlen]
  · have hdrop : (maskedFrameBytes f).drop
        (2 + (extLenBytes f.payload.length).length + 4 + c) =
        (removeMask f.key f.payload).drop c := by
      rw [maskedFrameBytes]
      rw [show 2 + (extLenBytes f.payload.length).length + 4 + c =
        ((extLenBytes f.payload.length).length + 4 + c) + 1 + 1 from by omega]
      rw [List.drop_succ_cons, List.drop_succ_cons]
      rw [← hemlen, List.drop_append]
    rw [hdrop]
    have hdl : ((removeMask f.key f.payload).drop c).length =
        f.payload.length - c := by
      rw [List.length_drop, hmp]
    have hres : ({ afterLenMask f with
        result := (removeMask f.key f.payload).take c ++
          List.replicate (f.payload.length - c) 0
        consumedPayloadLength := c } : Parser).result.isEmpty = false := by
      rw [List.isEmpty_eq_false]
      intro hnil
      have := congrArg List.length hnil
      rw [List.length_append, hqlen, List.length_replicate] at this
      simp at this
      omega
    refine Eq.trans (feed_payload_complete
      { afterLenMask f with
        result := (removeMask f.key f.payload).take c ++
          List.replicate (f.payload.length - c) 0
        consumedPayloadLength := c }
      ((removeMask f.key f.payload).drop c) rfl
      (show ¬ ((removeMask f.key f.payload).drop c).length <
        f.payload.length - c from by rw [hdl]; omega)
      hres
      (show ((removeMask f.key f.payload).drop c).length ≠ 0 from by
        rw [hdl]; omega)) ?_
    show ({ afterLenMask f with
        result := removeMask f.key (writeAt
          ((removeMask f.key f.payload).take c ++
            List.replicate (f.payload.length - c) 0) c
          (((removeMask f.key f.payload).drop c).take
            (f.payload.length - c)))
        consumedPayloadLength := 0
        pstate := .flagsAndPayloadData },
      FeedOut.stop (((removeMask f.key f.payload).drop c).drop
        (f.payload.length - c))) = (doneParser f, FeedOut.stop [])
    rw [List.take_of_length_le (le_of_eq hdl)]
    have hw := writeAt_fill (removeMask f.key f.payload) c
      ((removeMask f.key f.payload).drop c)
      (by rw [List.length_drop, hmp]; omega)
    rw [hmp] at hw
    rw [hw]
    rw [List.length_drop, hmp,
      show f.payload.length - c - (f.payload.length - c) = 0 from by omega,
      List.replicate_zero, List.append_nil, List.take_append_drop]
    rw [removeMask_removeMask]
    rw [List.drop_drop, List.drop_eq_nil_of_le (by rw [hmp]; omega)]
    rfl

theorem unmask_is_post_pass_witness :
    (Frame.wf ⟨true, 1, 4278190080, [65, 66]⟩ ∧ (1 : Nat) < 2) ∧
    feed Parser.init ((maskedFrameBytes ⟨true, 1, 4278190080, [65, 66]⟩).take
        (2 + (extLenBytes 2).length + 4 + 1)) =
      ({ afterLenMask ⟨true, 1, 4278190080, [65, 66]⟩ with
          result := (removeMask 4278190080 [65, 66]).take 1 ++
            List.replicate 1 0
          consumedPayloadLength := 1 }, .dontStop) :=
  ⟨⟨by decide, by decide⟩,
    (unmask_is_post_pass ⟨true, 1, 4278190080, [65, 66]⟩ (by decide) 1
      (by decide)).1⟩

end Websocket
